import Mathlib

/-!
Shallow embedding of the Suboptimal-firewall sources (src/main.go and
src/LoadB/lb.go) together with theorems settling the specification claims.

Modelling conventions:
- Go `time.Time` / `time.Duration` are modelled as `Int` nanoseconds
  (`t.After(u)` is `u < t`, `now.Add(-d)` is `now - d`).
- Go maps with zero-value defaults (`map[string][]time.Time`,
  `map[string]bool`) are modelled as total functions with the zero value as
  default; `map[string]time.Time` with its `found` flag is
  `String → Option Int`.
- Each exported check returns, besides its boolean, the successor state and
  the signals it emits: the send on `blacklistCh` and the timers spawned via
  `go startTimer(...)`.
- The two `time.Now()` calls inside one check (main.go lines 49 and 57) are
  modelled as the same instant `now`.
-/

namespace Firewall

/-- Nanoseconds in a second, mirroring Go `time.Second`. -/
def second : Int := 1000000000

/-- main.go line 18: `rateLimit = 20`. -/
def rateLimit : Nat := 20

/-- main.go line 19: `trackingDuration = 20 * time.Second`. -/
def trackingDuration : Int := 20 * second

/-- main.go line 20: `brownListedDuration = 25 * time.Second`. -/
def brownListedDuration : Int := 25 * second

/-- State of `rateLimiter` (main.go lines 23-30): the per-IP request history,
the permanent black list and the brown list with its expiry instants. The
channels are not state; emissions on them are returned by the operations. -/
structure RateLimiter where
  requests : String → List Int
  blackList : String → Bool
  brownList : String → Option Int

/-- The state `newRateLimiter` builds (main.go lines 32-42): all maps empty. -/
def initRL : RateLimiter :=
  { requests := fun _ => [], blackList := fun _ => false, brownList := fun _ => none }

/-- Pointwise update of a string-keyed map, modelling `m[k] = v`. -/
def upd {α : Type} (m : String → α) (k : String) (v : α) : String → α :=
  fun k' => if k' = k then v else m k'

/-- Result of one admission check: the returned boolean, the successor state,
the IPs sent on `blacklistCh`, and the `(ip, fireTime)` timers spawned. -/
structure CheckResult where
  allowed : Bool
  st : RateLimiter
  blockSignals : List String
  timers : List (String × Int)

/-- The pruning loop shared by `sessionCheck` (lines 60-67), `limitCheck`
(lines 99-106) and `cleanUp` (lines 125-132): keep exactly the timestamps `t`
with `t.After(now - trackingDuration)`, i.e. `now - trackingDuration < t`. -/
def pruneWindow (now : Int) (l : List Int) : List Int :=
  l.filter (fun t => (if now - trackingDuration < t then true else false))

/-- The sliding-window core shared by both checks: the history after appending
`now` and pruning (lines 57-68 and 96-107 of main.go). -/
def windowStep (rl : RateLimiter) (ip : String) (now : Int) : List Int :=
  pruneWindow now (rl.requests ip ++ [now])

/-- Lines 57-79 of `sessionCheck`: append `now`, prune, store the filtered
history; if its length exceeds `rateLimit`, brown-list the IP until
`now + brownListedDuration`, send the IP on `blacklistCh` and spawn
`startTimer`, returning false; otherwise return true. -/
def sessionWindow (rl : RateLimiter) (ip : String) (now : Int) : CheckResult :=
  let w := pruneWindow now (rl.requests ip ++ [now])
  let rl2 : RateLimiter := { rl with requests := upd rl.requests ip w }
  if rateLimit < w.length then
    { allowed := false
      st := { rl2 with brownList := upd rl2.brownList ip (some (now + brownListedDuration)) }
      blockSignals := [ip]
      timers := [(ip, now + brownListedDuration)] }
  else
    { allowed := true, st := rl2, blockSignals := [], timers := [] }

/-- main.go lines 44-80, `sessionCheck`: a brown-listed IP whose expiry is
still in the future is rejected outright; an expired entry is deleted
(line 52) before the sliding-window logic runs. -/
def sessionCheck (rl : RateLimiter) (ip : String) (now : Int) : CheckResult :=
  match rl.brownList ip with
  | some endTime =>
    if now < endTime then
      { allowed := false, st := rl, blockSignals := [], timers := [] }
    else
      sessionWindow { rl with brownList := upd rl.brownList ip none } ip now
  | none => sessionWindow rl ip now

/-- main.go lines 82-86, `startTimer`: sleeps for `duration` after being
spawned at `scheduledAt`, then performs exactly one send on `unblockCh`. Its
whole observable effect is this event; it takes no `RateLimiter` and returns
none, so it cannot mutate admission state. -/
structure TimerEvent where
  fireTime : Int
  emissions : List String

/-- The event produced by `go startTimer(ip, unblockCh, duration)` spawned at
instant `scheduledAt` (main.go line 75 spawns it, lines 82-86 run it). -/
def startTimer (ip : String) (scheduledAt : Int) (duration : Int) : TimerEvent :=
  { fireTime := scheduledAt + duration, emissions := [ip] }

/-- main.go lines 88-118, `limitCheck`: a black-listed IP is rejected with no
state change; otherwise append `now`, prune, store, and if the window length
exceeds `rateLimit`, black-list the IP, send it on `blacklistCh` and return
false; else return true. -/
def limitCheck (rl : RateLimiter) (ip : String) (now : Int) : CheckResult :=
  if rl.blackList ip then
    { allowed := false, st := rl, blockSignals := [], timers := [] }
  else
    let w := pruneWindow now (rl.requests ip ++ [now])
    let rl2 : RateLimiter := { rl with requests := upd rl.requests ip w }
    if rateLimit < w.length then
      { allowed := false
        st := { rl2 with blackList := upd rl2.blackList ip true }
        blockSignals := [ip]
        timers := [] }
    else
      { allowed := true, st := rl2, blockSignals := [], timers := [] }

/-- One pass of the `cleanUp` sweep body (main.go lines 123-135) taken at
instant `now`: every IP's history is pruned; nothing else is touched. -/
def cleanUpStep (rl : RateLimiter) (now : Int) : RateLimiter :=
  { rl with requests := fun ip => pruneWindow now (rl.requests ip) }

/-- The dispatch in `handleRedirect` (main.go lines 175-188): requests with a
`Session-ID` header go through `sessionCheck`, the rest through `limitCheck`. -/
def handleCheck (rl : RateLimiter) (ip : String) (hasSession : Bool) (now : Int) : CheckResult :=
  if hasSession then sessionCheck rl ip now else limitCheck rl ip now

/-- Run `limitCheck` over a list of request instants, threading the state,
and collect the returned booleans. -/
def runLimitChecks (rl : RateLimiter) (ip : String) : List Int → List Bool
  | [] => []
  | t :: ts =>
    let r := limitCheck rl ip t
    r.allowed :: runLimitChecks r.st ip ts

/-- Run `handleCheck` over a list of `(hasSession, instant)` requests,
threading the state, and collect the returned booleans. -/
def runMixedChecks (rl : RateLimiter) (ip : String) : List (Bool × Int) → List Bool
  | [] => []
  | (hs, t) :: ts =>
    let r := handleCheck rl ip hs t
    r.allowed :: runMixedChecks r.st ip ts

/-- Final state after running `handleCheck` over a list of requests. -/
def runMixedState (rl : RateLimiter) (ip : String) : List (Bool × Int) → RateLimiter
  | [] => rl
  | (hs, t) :: ts => runMixedState (handleCheck rl ip hs t).st ip ts

/-! Lock/channel trace model. `blacklistCh` and `unblockCh` are created with
`make(chan string)` (main.go lines 155-156): unbuffered, so every send on them
blocks until a consumer receives. Both checks run entirely between
`rl.mu.Lock()` and the deferred `rl.mu.Unlock()`. The traces below list, in
source order, the lock and channel operations each path performs. -/

/-- A lock or channel operation performed by a check. `blockingSend` is a bare
`ch <- ip` on an unbuffered channel (no `select` with `default` anywhere in
the source); `spawnTimer` is `go startTimer(...)`. -/
inductive LockAction : Type
  | acquireMu : LockAction
  | releaseMu : LockAction
  | blockingSend : LockAction
  | spawnTimer : LockAction
deriving DecidableEq

/-- Operation trace of `limitCheck` (main.go lines 88-118): `rl.mu.Lock()` on
entry, deferred `rl.mu.Unlock()` on return, and on the over-limit branch the
send `rl.blacklistCh <- ip` (line 113) in between. -/
def limitCheckTrace (rl : RateLimiter) (ip : String) (now : Int) : List LockAction :=
  if rl.blackList ip then [LockAction.acquireMu, LockAction.releaseMu]
  else if rateLimit < (windowStep rl ip now).length then
    [LockAction.acquireMu, LockAction.blockingSend, LockAction.releaseMu]
  else [LockAction.acquireMu, LockAction.releaseMu]

/-- Operation trace of `sessionCheck` (main.go lines 44-80): on the over-limit
branch the send `rl.blacklistCh <- ip` (line 74) and the spawn of `startTimer`
(line 75) happen between `Lock` and the deferred `Unlock`. Deleting an expired
brown-list entry does not change the history, so the window test is the same
as on the untouched state. -/
def sessionCheckTrace (rl : RateLimiter) (ip : String) (now : Int) : List LockAction :=
  let activeBrown : Bool :=
    match rl.brownList ip with
    | some endTime => if now < endTime then true else false
    | none => false
  if activeBrown then [LockAction.acquireMu, LockAction.releaseMu]
  else if rateLimit < (windowStep rl ip now).length then
    [LockAction.acquireMu, LockAction.blockingSend, LockAction.spawnTimer,
      LockAction.releaseMu]
  else [LockAction.acquireMu, LockAction.releaseMu]

/-- Scans a trace and reports whether a blocking channel send occurs while the
mutex is held (lock depth positive). -/
def sendWhileLockedAux : List LockAction → Nat → Bool
  | [], _ => false
  | LockAction.acquireMu :: rest, depth => sendWhileLockedAux rest (depth + 1)
  | LockAction.releaseMu :: rest, depth => sendWhileLockedAux rest (depth - 1)
  | LockAction.blockingSend :: rest, depth =>
    if 0 < depth then true else sendWhileLockedAux rest depth
  | LockAction.spawnTimer :: rest, depth => sendWhileLockedAux rest depth

/-- True when the trace performs a blocking send with the state lock held. -/
def sendWhileLocked (tr : List LockAction) : Bool :=
  sendWhileLockedAux tr 0

/-! Load balancer model (src/LoadB/lb.go). A Go `Server` interface value is a
pointer shared by `Servers` and `SessionTable`; the model represents that
pointer as the index of the backend in the `servers` list, so `sessionTable`
maps a session id to a backend index and connection-count updates are visible
through every alias. `SimpleServer` carries an address, a liveness answer
(`IsAlive`, constantly true for `SimpleServer` but part of the interface) and
the `activeConn` counter (a Go `int`). -/

/-- One backend (lb.go lines 95-100, behind the `Server` interface). -/
structure Server where
  addr : String
  alive : Bool
  activeConn : Int
deriving DecidableEq

/-- lb.go lines 141-145, `IncActiveConn`. -/
def incActiveConn (s : Server) : Server :=
  { s with activeConn := s.activeConn + 1 }

/-- lb.go lines 147-151, `DecActiveConn`. The source defines this method but
`ServeProxy` never calls it: its only call site (lines 81-83) is commented
out. -/
def decActiveConn (s : Server) : Server :=
  { s with activeConn := s.activeConn - 1 }

/-- State of `Loadbalancer` (lb.go lines 11-18). -/
structure Loadbalancer where
  servers : List Server
  roundRobinCount : Nat
  sessionTable : String → Option Nat
  algorithm : String

/-- lb.go lines 30-40, `GetNextAvailableServer`: start at
`RoundRobinCount % len(Servers)` and advance while the probed backend is not
alive; on exit increment the counter once more and return the probed backend.
The Go loop has no bound, so the model takes `fuel`, the number of probes
still allowed: `none` means the loop has not produced a backend within `fuel`
probes. The result is `(index of chosen backend, new RoundRobinCount)`. -/
def getNextAvailIdx (servers : List Server) : Nat → Nat → Option (Nat × Nat)
  | 0, _ => none
  | fuel + 1, count =>
    match servers.get? (count % servers.length) with
    | none => none
    | some s =>
      if s.alive then some (count % servers.length, count + 1)
      else getNextAvailIdx servers fuel (count + 1)

/-- The loop of `GetLeastConnServer` (lb.go lines 46-53) with `sel` the
`selected` variable carrying its index: skip dead backends; take the current
backend when nothing is selected yet or when its `activeConn` is strictly
smaller than the selected one's. -/
def getLeastConnAux : List Server → Nat → Option (Nat × Server) → Option (Nat × Server)
  | [], _, sel => sel
  | s :: rest, i, none =>
    if s.alive then getLeastConnAux rest (i + 1) (some (i, s))
    else getLeastConnAux rest (i + 1) none
  | s :: rest, i, some (j, b) =>
    if s.alive then
      if s.activeConn < b.activeConn then getLeastConnAux rest (i + 1) (some (i, s))
      else getLeastConnAux rest (i + 1) (some (j, b))
    else getLeastConnAux rest (i + 1) (some (j, b))

/-- lb.go lines 42-55, `GetLeastConnServer`: returns the selected backend and
its index, or `none` (Go `nil`) when no backend is alive. -/
def getLeastConnServer (servers : List Server) : Option (Nat × Server) :=
  getLeastConnAux servers 0 none

/-- Increment `activeConn` of the backend at index `i` (the effect of
`targetServer.IncActiveConn()` seen through the servers list). -/
def incConnAt : List Server → Nat → List Server
  | [], _ => []
  | s :: rest, 0 => incActiveConn s :: rest
  | s :: rest, n + 1 => s :: incConnAt rest n

/-- Result of `ServeProxy`: the index of the backend the request was forwarded
to (`none` when selection produced no backend: the Go code then either never
exits the round-robin loop or dereferences a nil interface) and the successor
load-balancer state. -/
structure ProxyResult where
  target : Option Nat
  lb : Loadbalancer

/-- The selection part of `ServeProxy` (lb.go lines 59-75): a non-empty
`Session-ID` found in `SessionTable` returns the bound backend; a non-empty id
not in the table is resolved with `GetNextAvailableServer` — whatever
`Algorithm` says — and the binding is stored; an empty id dispatches on
`Algorithm` (`"lc"` or `"rr"`, anything else leaves `targetServer` nil). -/
def serveProxySelect (lb : Loadbalancer) (fuel : Nat) (sessionID : String) : ProxyResult :=
  if sessionID = "" then
    if lb.algorithm = "lc" then
      match getLeastConnServer lb.servers with
      | some (i, _) => { target := some i, lb := lb }
      | none => { target := none, lb := lb }
    else if lb.algorithm = "rr" then
      match getNextAvailIdx lb.servers fuel lb.roundRobinCount with
      | some (i, c) => { target := some i, lb := { lb with roundRobinCount := c } }
      | none => { target := none, lb := lb }
    else { target := none, lb := lb }
  else
    match lb.sessionTable sessionID with
    | some i => { target := some i, lb := lb }
    | none =>
      match getNextAvailIdx lb.servers fuel lb.roundRobinCount with
      | some (i, c) =>
        { target := some i
          lb := { lb with
                  roundRobinCount := c
                  sessionTable := fun t => if t = sessionID then some i else lb.sessionTable t } }
      | none => { target := none, lb := lb }

/-- The tail of `ServeProxy` after selection (lb.go lines 76-84):
`targetServer.IncActiveConn()`, then forward. No decrement follows the
forward: the `DecActiveConn` call at lines 81-83 is commented out, so the
per-request effect on the chosen backend's counter is exactly one
increment. -/
def applyForward (r : ProxyResult) : ProxyResult :=
  match r.target with
  | some i => { target := some i, lb := { r.lb with servers := incConnAt r.lb.servers i } }
  | none => r

/-- lb.go lines 58-84, `ServeProxy` in full: select a backend with
`serveProxySelect`, then apply `applyForward`. -/
def serveProxy (lb : Loadbalancer) (fuel : Nat) (sessionID : String) : ProxyResult :=
  applyForward (serveProxySelect lb fuel sessionID)

/-! Concrete inputs used by the scenarios and witnesses. -/

/-- Client IP used by the concrete request scenarios. -/
def ipC1 : String := "198.51.100.7"

/-- Twenty-one request instants a quarter second apart, all within five
seconds (nanosecond values), matching the spec scenario. -/
def c1Times : List Int := (List.range 21).map (fun j => (j : Int) * (second / 4))

/-- Twenty-one mixed requests from one IP at the `c1Times` instants: the first
ten carry a session token, the last eleven do not. -/
def c9Requests : List (Bool × Int) :=
  (List.range 21).map (fun j => (decide (j < 10), (j : Int) * (second / 4)))

/-- A rate limiter that has already recorded twenty requests at instant 0 for
`ipC1`. -/
def rl20 : RateLimiter :=
  { initRL with requests := upd initRL.requests ipC1 (List.replicate 20 0) }

/-- A rate limiter whose brown-list entry for `ipC1` expires at instant
`brownListedDuration`. -/
def rlBrown : RateLimiter :=
  { initRL with brownList := upd initRL.brownList ipC1 (some brownListedDuration) }

/-- Pool of two alive backends where round robin from cursor 0 picks `A` but
least connections picks `B`; configured for least connections. -/
def lbC5 : Loadbalancer :=
  { servers := [⟨"A", true, 5⟩, ⟨"B", true, 0⟩]
    roundRobinCount := 0
    sessionTable := fun _ => none
    algorithm := "lc" }

/-- Round-robin pool with a single alive backend whose counter is 0. -/
def lbC8 : Loadbalancer :=
  { servers := [⟨"A", true, 0⟩]
    roundRobinCount := 0
    sessionTable := fun _ => none
    algorithm := "rr" }

/-- A pool in which no backend is alive. -/
def deadPool : List Server := [⟨"a", false, 0⟩, ⟨"b", false, 0⟩]

/-- A rate limiter that already black-listed `ipC1`. -/
def rlBlack : RateLimiter :=
  { initRL with blackList := upd initRL.blackList ipC1 true }

/-- The spec example pool: three alive backends with counts 2, 0, 1. -/
def lcPool : List Server := [⟨"A", true, 2⟩, ⟨"B", true, 0⟩, ⟨"C", true, 1⟩]

/-- Two alive backends with equal counts, exercising the tie break. -/
def tiePool : List Server := [⟨"X", true, 1⟩, ⟨"Y", true, 1⟩]

/-! Helper lemmas shared by the claim theorems. -/

theorem limitCheck_allowed_iff (rl : RateLimiter) (ip : String) (now : Int)
    (h : rl.blackList ip = false) :
    (limitCheck rl ip now).allowed = true ↔ (windowStep rl ip now).length ≤ rateLimit := by
  unfold limitCheck windowStep
  simp only [h, Bool.false_eq_true, if_false]
  by_cases hw : rateLimit < (pruneWindow now (rl.requests ip ++ [now])).length <;>
    simp [hw] <;> omega

theorem sessionCheck_blackList (rl : RateLimiter) (ip : String) (now : Int) :
    (sessionCheck rl ip now).st.blackList = rl.blackList := by
  unfold sessionCheck sessionWindow
  cases h : rl.brownList ip with
  | none =>
    by_cases hw : rateLimit < (pruneWindow now (rl.requests ip ++ [now])).length <;> simp [hw]
  | some e =>
    by_cases hlt : now < e
    · simp [hlt]
    · simp only [hlt, if_false]
      by_cases hw : rateLimit < (pruneWindow now (rl.requests ip ++ [now])).length <;> simp [hw]

theorem getLeastConnAux_some (l : List Server) :
    ∀ (i : Nat) (p : Nat × Server), ∃ q, getLeastConnAux l i (some p) = some q := by
  induction l with
  | nil => intro i p; exact ⟨p, rfl⟩
  | cons u rest ih =>
    intro i p
    obtain ⟨j, b⟩ := p
    unfold getLeastConnAux
    by_cases ha : u.alive = true
    · rw [if_pos ha]
      by_cases hc : u.activeConn < b.activeConn
      · rw [if_pos hc]; exact ih (i + 1) (i, u)
      · rw [if_neg hc]; exact ih (i + 1) (j, b)
    · rw [if_neg ha]; exact ih (i + 1) (j, b)

theorem getLeastConnAux_none_iff (l : List Server) :
    ∀ (i : Nat), (getLeastConnAux l i none = none ↔ ∀ s ∈ l, s.alive = false) := by
  induction l with
  | nil => intro i; simp [getLeastConnAux]
  | cons u rest ih =>
    intro i
    unfold getLeastConnAux
    by_cases ha : u.alive = true
    · rw [if_pos ha]
      constructor
      · intro h
        obtain ⟨q, hq⟩ := getLeastConnAux_some rest (i + 1) (i, u)
        rw [h] at hq
        exact absurd hq (by simp)
      · intro h
        have := h u (by simp)
        rw [this] at ha
        exact absurd ha (by simp)
    · rw [if_neg ha]
      rw [ih (i + 1)]
      constructor
      · intro h t ht
        rcases List.mem_cons.mp ht with rfl | ht2
        · exact Bool.not_eq_true _ |>.mp ha
        · exact h t ht2
      · intro h t ht
        exact h t (List.mem_cons_of_mem u ht)

theorem getLeastConnAux_min (l : List Server) :
    ∀ (i : Nat) (sel : Option (Nat × Server)) (j : Nat) (s : Server),
      getLeastConnAux l i sel = some (j, s) →
      (∀ t ∈ l, t.alive = true → s.activeConn ≤ t.activeConn) ∧
      (∀ p : Nat × Server, sel = some p → s.activeConn ≤ p.2.activeConn) := by
  induction l with
  | nil =>
    intro i sel j s h
    unfold getLeastConnAux at h
    constructor
    · intro t ht halive; simp at ht
    · intro p hp
      rw [hp] at h
      obtain rfl := Option.some.inj h
      exact le_refl _
  | cons u rest ih =>
    intro i sel j s h
    cases sel with
    | none =>
      unfold getLeastConnAux at h
      by_cases ha : u.alive = true
      · rw [if_pos ha] at h
        obtain ⟨hmin, hacc⟩ := ih (i + 1) (some (i, u)) j s h
        refine ⟨?_, ?_⟩
        · intro t ht halive
          rcases List.mem_cons.mp ht with rfl | ht2
          · exact hacc (i, t) rfl
          · exact hmin t ht2 halive
        · intro p hp; simp at hp
      · rw [if_neg ha] at h
        obtain ⟨hmin, hacc⟩ := ih (i + 1) none j s h
        refine ⟨?_, ?_⟩
        · intro t ht halive
          rcases List.mem_cons.mp ht with rfl | ht2
          · exact absurd halive ha
          · exact hmin t ht2 halive
        · intro p hp; simp at hp
    | some q =>
      obtain ⟨j0, b⟩ := q
      unfold getLeastConnAux at h
      by_cases ha : u.alive = true
      · rw [if_pos ha] at h
        by_cases hc : u.activeConn < b.activeConn
        · rw [if_pos hc] at h
          obtain ⟨hmin, hacc⟩ := ih (i + 1) (some (i, u)) j s h
          have hsu : s.activeConn ≤ u.activeConn := hacc (i, u) rfl
          refine ⟨?_, ?_⟩
          · intro t ht halive
            rcases List.mem_cons.mp ht with rfl | ht2
            · exact hsu
            · exact hmin t ht2 halive
          · intro p hp
            obtain rfl := Option.some.inj hp
            exact le_of_lt (lt_of_le_of_lt hsu hc)
        · rw [if_neg hc] at h
          obtain ⟨hmin, hacc⟩ := ih (i + 1) (some (j0, b)) j s h
          have hsb : s.activeConn ≤ b.activeConn := hacc (j0, b) rfl
          refine ⟨?_, ?_⟩
          · intro t ht halive
            rcases List.mem_cons.mp ht with rfl | ht2
            · exact le_trans hsb (not_lt.mp hc)
            · exact hmin t ht2 halive
          · intro p hp
            obtain rfl := Option.some.inj hp
            exact hsb
      · rw [if_neg ha] at h
        obtain ⟨hmin, hacc⟩ := ih (i + 1) (some (j0, b)) j s h
        refine ⟨?_, hacc⟩
        intro t ht halive
        rcases List.mem_cons.mp ht with rfl | ht2
        · exact absurd halive ha
        · exact hmin t ht2 halive

theorem getLeastConnAux_first (l : List Server) :
    ∀ (i j0 : Nat) (b : Server) (j : Nat) (s : Server),
      getLeastConnAux l i (some (j0, b)) = some (j, s) →
      ((j, s) = (j0, b)) ∨
      (∃ k, j = i + k ∧ l.get? k = some s ∧ s.alive = true ∧
        s.activeConn < b.activeConn ∧
        (∀ (k2 : Nat) (t : Server), k2 < k → l.get? k2 = some t → t.alive = true →
          s.activeConn < t.activeConn)) := by
  induction l with
  | nil =>
    intro i j0 b j s h
    unfold getLeastConnAux at h
    exact Or.inl (Option.some.inj h).symm
  | cons u rest ih =>
    intro i j0 b j s h
    unfold getLeastConnAux at h
    by_cases ha : u.alive = true
    · rw [if_pos ha] at h
      by_cases hc : u.activeConn < b.activeConn
      · rw [if_pos hc] at h
        rcases ih (i + 1) i u j s h with heq | ⟨k, hk, hget, halive, hlt, htb⟩
        · rw [Prod.mk.injEq] at heq
          obtain ⟨rfl, rfl⟩ := heq
          right
          exact ⟨0, by omega, rfl, ha, hc,
            fun k2 t hk2 hg hal => absurd hk2 (Nat.not_lt_zero k2)⟩
        · right
          refine ⟨k + 1, by omega, by simpa using hget, halive, lt_trans hlt hc, ?_⟩
          intro k2 t hk2 hget2 halive2
          cases k2 with
          | zero =>
            obtain rfl : u = t := by simpa using hget2
            exact hlt
          | succ k3 =>
            exact htb k3 t (by omega) (by simpa using hget2) halive2
      · rw [if_neg hc] at h
        rcases ih (i + 1) j0 b j s h with heq | ⟨k, hk, hget, halive, hlt, htb⟩
        · exact Or.inl heq
        · right
          refine ⟨k + 1, by omega, by simpa using hget, halive, hlt, ?_⟩
          intro k2 t hk2 hget2 halive2
          cases k2 with
          | zero =>
            obtain rfl : u = t := by simpa using hget2
            exact lt_of_lt_of_le hlt (not_lt.mp hc)
          | succ k3 =>
            exact htb k3 t (by omega) (by simpa using hget2) halive2
    · rw [if_neg ha] at h
      rcases ih (i + 1) j0 b j s h with heq | ⟨k, hk, hget, halive, hlt, htb⟩
      · exact Or.inl heq
      · right
        refine ⟨k + 1, by omega, by simpa using hget, halive, hlt, ?_⟩
        intro k2 t hk2 hget2 halive2
        cases k2 with
        | zero =>
          obtain rfl : u = t := by simpa using hget2
          exact absurd halive2 ha
        | succ k3 =>
          exact htb k3 t (by omega) (by simpa using hget2) halive2

theorem getLeastConnAux_firstNone (l : List Server) :
    ∀ (i j : Nat) (s : Server),
      getLeastConnAux l i none = some (j, s) →
      ∃ k, j = i + k ∧ l.get? k = some s ∧ s.alive = true ∧
        (∀ (k2 : Nat) (t : Server), k2 < k → l.get? k2 = some t → t.alive = true →
          s.activeConn < t.activeConn) := by
  induction l with
  | nil =>
    intro i j s h
    unfold getLeastConnAux at h
    simp at h
  | cons u rest ih =>
    intro i j s h
    unfold getLeastConnAux at h
    by_cases ha : u.alive = true
    · rw [if_pos ha] at h
      rcases getLeastConnAux_first rest (i + 1) i u j s h with heq | ⟨k, hk, hget, halive, hlt, htb⟩
      · rw [Prod.mk.injEq] at heq
        obtain ⟨rfl, rfl⟩ := heq
        exact ⟨0, by omega, rfl, ha,
          fun k2 t hk2 hg hal => absurd hk2 (Nat.not_lt_zero k2)⟩
      · refine ⟨k + 1, by omega, by simpa using hget, halive, ?_⟩
        intro k2 t hk2 hget2 halive2
        cases k2 with
        | zero =>
          obtain rfl : u = t := by simpa using hget2
          exact hlt
        | succ k3 => exact htb k3 t (by omega) (by simpa using hget2) halive2
    · rw [if_neg ha] at h
      obtain ⟨k, hk, hget, halive, htb⟩ := ih (i + 1) j s h
      refine ⟨k + 1, by omega, by simpa using hget, halive, ?_⟩
      intro k2 t hk2 hget2 halive2
      cases k2 with
      | zero =>
        obtain rfl : u = t := by simpa using hget2
        exact absurd halive2 ha
      | succ k3 => exact htb k3 t (by omega) (by simpa using hget2) halive2

theorem serveProxySelect_servers (lb : Loadbalancer) (fuel : Nat) (sid : String) :
    (serveProxySelect lb fuel sid).lb.servers = lb.servers := by
  unfold serveProxySelect
  by_cases hs : sid = ""
  · rw [if_pos hs]
    by_cases hlc : lb.algorithm = "lc"
    · rw [if_pos hlc]
      cases getLeastConnServer lb.servers with
      | none => rfl
      | some p => obtain ⟨i, s⟩ := p; rfl
    · rw [if_neg hlc]
      by_cases hrr : lb.algorithm = "rr"
      · rw [if_pos hrr]
        cases getNextAvailIdx lb.servers fuel lb.roundRobinCount with
        | none => rfl
        | some p => obtain ⟨i, c⟩ := p; rfl
      · rw [if_neg hrr]
  · rw [if_neg hs]
    cases lb.sessionTable sid with
    | some i => rfl
    | none =>
      cases getNextAvailIdx lb.servers fuel lb.roundRobinCount with
      | none => rfl
      | some p => obtain ⟨i, c⟩ := p; rfl

theorem incConnAt_get (l : List Server) :
    ∀ (i : Nat) (s : Server), l.get? i = some s →
      (incConnAt l i).get? i = some (incActiveConn s) := by
  induction l with
  | nil => intro i s h; simp [List.get?] at h
  | cons u rest ih =>
    intro i s h
    cases i with
    | zero =>
      simp only [List.get?_cons_zero] at h
      obtain rfl := Option.some.inj h
      rfl
    | succ n =>
      simp only [List.get?_cons_succ] at h
      simp only [incConnAt, List.get?_cons_succ]
      exact ih n s h

/-! Claim theorems. -/

/-- C1: for any IP that is not black-listed, `limitCheck` admits exactly when
the sliding window, recomputed by appending the request instant and pruning
entries older than `trackingDuration`, has length at most `rateLimit`; and in
the spec scenario — 21 non-session requests within five seconds from a fresh
state with the defaults `rateLimit = 20`, `trackingDuration = 20 s` — requests
1 through 20 are admitted and request 21 is rejected. -/
theorem C1_sliding_window_threshold :
    (∀ (rl : RateLimiter) (ip : String) (now : Int), rl.blackList ip = false →
      ((limitCheck rl ip now).allowed = true ↔ (windowStep rl ip now).length ≤ rateLimit)) ∧
    runLimitChecks initRL ipC1 c1Times = List.replicate 20 true ++ [false] := by
  refine ⟨limitCheck_allowed_iff, ?_⟩
  decide

/-- Witness for C1 at a concrete input. -/
theorem C1_sliding_window_threshold_witness :
    initRL.blackList ipC1 = false ∧
    ((limitCheck initRL ipC1 0).allowed = true ↔ (windowStep initRL ipC1 0).length ≤ rateLimit) :=
  ⟨rfl, C1_sliding_window_threshold.1 initRL ipC1 0 rfl⟩

/-- C2: a brown-listed IP is rejected, with no state change and no emission,
by every `sessionCheck` strictly before the recorded expiry; when the pruned
window of a non-brown-listed IP exceeds `rateLimit`, the IP is brown-listed
until `now + brownListedDuration`, exactly one block signal is sent and
exactly one timer is spawned; at or after the expiry the brown list no longer
forces rejection (admission is decided by the window again); and the spawned
timer fires at the expiry instant with exactly one unblock emission. -/
theorem C2_brownlist_lifecycle :
    (∀ (rl : RateLimiter) (ip : String) (now e : Int),
        rl.brownList ip = some e → now < e →
        sessionCheck rl ip now = ⟨false, rl, [], []⟩) ∧
    (∀ (rl : RateLimiter) (ip : String) (now : Int),
        rl.brownList ip = none → rateLimit < (windowStep rl ip now).length →
        (sessionCheck rl ip now).allowed = false ∧
        (sessionCheck rl ip now).st.brownList ip = some (now + brownListedDuration) ∧
        (sessionCheck rl ip now).blockSignals = [ip] ∧
        (sessionCheck rl ip now).timers = [(ip, now + brownListedDuration)]) ∧
    (∀ (rl : RateLimiter) (ip : String) (now e : Int),
        rl.brownList ip = some e → e ≤ now →
        ((sessionCheck rl ip now).allowed = true ↔ (windowStep rl ip now).length ≤ rateLimit)) ∧
    (∀ (ip : String) (sched : Int),
        startTimer ip sched brownListedDuration =
          { fireTime := sched + brownListedDuration, emissions := [ip] }) := by
  refine ⟨?_, ?_, ?_, ?_⟩
  · intro rl ip now e he hlt
    simp [sessionCheck, he, hlt]
  · intro rl ip now hb hw
    unfold sessionCheck
    rw [hb]
    unfold sessionWindow windowStep at *
    simp only [hw, if_true, if_pos]
    simp [upd]
  · intro rl ip now e he hle
    have hnl : ¬ now < e := by omega
    unfold sessionCheck
    simp only [he, hnl, if_false]
    unfold sessionWindow windowStep
    by_cases hw : rateLimit < (pruneWindow now (rl.requests ip ++ [now])).length <;>
      simp [hw] <;> omega
  · intro ip sched
    rfl

/-- Witness for C2 at a concrete input. -/
theorem C2_brownlist_lifecycle_witness :
    rlBrown.brownList ipC1 = some brownListedDuration ∧ (0 : Int) < brownListedDuration ∧
    sessionCheck rlBrown ipC1 0 = ⟨false, rlBrown, [], []⟩ :=
  ⟨by decide, by decide,
    C2_brownlist_lifecycle.1 rlBrown ipC1 0 brownListedDuration (by decide) (by decide)⟩

/-- C3: `limitCheck` rejects a black-listed IP and leaves the state untouched,
and no core operation clears a black-list entry: after `limitCheck`,
`sessionCheck` or a `cleanUp` pass, every black-listed IP is still
black-listed, and `startTimer` only emits on the unblock channel (its output
carries no admission state at all). -/
theorem C3_blacklist_terminal :
    (∀ (rl : RateLimiter) (ip : String) (now : Int),
        rl.blackList ip = true → limitCheck rl ip now = ⟨false, rl, [], []⟩) ∧
    (∀ (rl : RateLimiter) (ip ip2 : String) (now : Int),
        rl.blackList ip2 = true →
        (limitCheck rl ip now).st.blackList ip2 = true ∧
        (sessionCheck rl ip now).st.blackList ip2 = true ∧
        (cleanUpStep rl now).blackList ip2 = true) ∧
    (∀ (ip : String) (sched dur : Int), (startTimer ip sched dur).emissions = [ip]) := by
  refine ⟨?_, ?_, fun _ _ _ => rfl⟩
  · intro rl ip now h
    simp [limitCheck, h]
  · intro rl ip ip2 now h
    refine ⟨?_, ?_, h⟩
    · unfold limitCheck
      by_cases hb : rl.blackList ip
      · simp [hb, h]
      · simp only [hb, Bool.false_eq_true, if_false]
        by_cases hw : rateLimit < (pruneWindow now (rl.requests ip ++ [now])).length
        · simp only [hw, if_true, if_pos]
          unfold upd
          by_cases hip : ip2 = ip <;> simp [hip, h]
        · simp [hw, h]
    · rw [sessionCheck_blackList]
      exact h

/-- Witness for C3 at a concrete input. -/
theorem C3_blacklist_terminal_witness :
    rlBlack.blackList ipC1 = true ∧ limitCheck rlBlack ipC1 0 = ⟨false, rlBlack, [], []⟩ :=
  ⟨by decide, C3_blacklist_terminal.1 rlBlack ipC1 0 (by decide)⟩

/-- C4: on a pool with no alive backend the round-robin scan of
`GetNextAvailableServer` never produces a result, whatever the probe budget:
the source loop has no exit and no `NoAvailableBackend` failure path, contrary
to the claimed bound of `len(backends)` probes. -/
theorem C4_round_robin_all_dead_never_returns :
    ∀ (servers : List Server), (∀ s ∈ servers, s.alive = false) →
      ∀ (fuel count : Nat), getNextAvailIdx servers fuel count = none := by
  intro servers h fuel
  induction fuel with
  | zero => intro count; rfl
  | succ n ih =>
    intro count
    unfold getNextAvailIdx
    cases hm : servers.get? (count % servers.length) with
    | none => rfl
    | some s =>
      have hs : s ∈ servers := List.get?_mem hm
      simp only [h s hs, Bool.false_eq_true, if_false]
      exact ih (count + 1)

/-- Witness for C4 at a concrete input. -/
theorem C4_round_robin_all_dead_never_returns_witness :
    (∀ s ∈ deadPool, s.alive = false) ∧ getNextAvailIdx deadPool 50 0 = none :=
  ⟨by decide, C4_round_robin_all_dead_never_returns deadPool (by decide) 50 0⟩

/-- C5 counterexample: `lbC5` is configured for least connections, the token
is absent from the session table, yet the miss path of `ServeProxy` selects
backend 0 via `GetNextAvailableServer`, while least-connections selection
would give backend 1 — the configured policy is not consulted. -/
theorem C5_policy_bypass_counterexample :
    lbC5.algorithm = "lc" ∧ lbC5.sessionTable "tok" = none ∧
    (serveProxySelect lbC5 4 "tok").target = some 0 ∧
    (getLeastConnServer lbC5.servers).map Prod.fst = some 1 ∧
    (serveProxySelect lbC5 4 "tok").target ≠ (getLeastConnServer lbC5.servers).map Prod.fst := by
  refine ⟨rfl, rfl, by decide, by decide, by decide⟩

/-- C5 (amended): a non-empty session token present in `sessionTable` returns
the bound backend unconditionally with the state unchanged; a token absent
from the table is resolved via `GetNextAvailableServer` (round robin)
regardless of the configured policy, the binding is recorded before
returning, and every subsequent selection with that token returns the same
backend. -/
theorem C5_sticky_session_round_robin :
    (∀ (lb : Loadbalancer) (fuel : Nat) (sid : String) (i : Nat),
        sid ≠ "" → lb.sessionTable sid = some i →
        serveProxySelect lb fuel sid = ⟨some i, lb⟩) ∧
    (∀ (lb : Loadbalancer) (fuel : Nat) (sid : String) (i c : Nat),
        sid ≠ "" → lb.sessionTable sid = none →
        getNextAvailIdx lb.servers fuel lb.roundRobinCount = some (i, c) →
        (serveProxySelect lb fuel sid).target = some i ∧
        (serveProxySelect lb fuel sid).lb.sessionTable sid = some i ∧
        (∀ fuel2 : Nat,
          (serveProxySelect (serveProxySelect lb fuel sid).lb fuel2 sid).target = some i)) := by
  constructor
  · intro lb fuel sid i hs ht
    unfold serveProxySelect
    rw [if_neg hs, ht]
  · intro lb fuel sid i c hs ht hg
    have hsel : serveProxySelect lb fuel sid =
        { target := some i
          lb := { lb with
                  roundRobinCount := c
                  sessionTable := fun t => if t = sid then some i else lb.sessionTable t } } := by
      unfold serveProxySelect
      rw [if_neg hs, ht, hg]
    rw [hsel]
    refine ⟨rfl, by simp, ?_⟩
    intro fuel2
    unfold serveProxySelect
    rw [if_neg hs]
    simp

/-- Witness for the amended C5 at a concrete input. -/
theorem C5_sticky_session_round_robin_witness :
    ("tok" : String) ≠ "" ∧ lbC5.sessionTable "tok" = none ∧
    getNextAvailIdx lbC5.servers 4 lbC5.roundRobinCount = some (0, 1) ∧
    ((serveProxySelect lbC5 4 "tok").target = some 0 ∧
      (serveProxySelect lbC5 4 "tok").lb.sessionTable "tok" = some 0 ∧
      (∀ fuel2 : Nat,
        (serveProxySelect (serveProxySelect lbC5 4 "tok").lb fuel2 "tok").target = some 0)) :=
  ⟨by decide, rfl, by decide,
    C5_sticky_session_round_robin.2 lbC5 4 "tok" 0 1 (by decide) rfl (by decide)⟩

/-- C6: `GetLeastConnServer` returns `none` (Go `nil`, no valid backend)
exactly when no backend is alive; a returned backend is alive, sits at the
returned index, has minimal `activeConn` among all alive backends, and every
alive backend at a smaller index has strictly more connections (earliest
index wins ties); on the spec pool `[A = 2, B = 0, C = 1]` it returns `B`,
and on a pure tie it returns the earlier backend. -/
theorem C6_least_conn_selection :
    (∀ (servers : List Server),
        getLeastConnServer servers = none ↔ ∀ s ∈ servers, s.alive = false) ∧
    (∀ (servers : List Server) (i : Nat) (s : Server),
        getLeastConnServer servers = some (i, s) →
        servers.get? i = some s ∧ s.alive = true ∧
        (∀ t ∈ servers, t.alive = true → s.activeConn ≤ t.activeConn) ∧
        (∀ (j : Nat) (t : Server), j < i → servers.get? j = some t → t.alive = true →
          s.activeConn < t.activeConn)) ∧
    getLeastConnServer lcPool = some (1, ⟨"B", true, 0⟩) ∧
    getLeastConnServer tiePool = some (0, ⟨"X", true, 1⟩) := by
  refine ⟨fun servers => getLeastConnAux_none_iff servers 0, ?_, by decide, by decide⟩
  intro servers i s h
  obtain ⟨k, hk, hget, halive, htb⟩ := getLeastConnAux_firstNone servers 0 i s h
  obtain ⟨hmin, -⟩ := getLeastConnAux_min servers 0 none i s h
  have hk2 : i = k := by omega
  subst hk2
  exact ⟨hget, halive, hmin, fun j t hj hg hal => htb j t hj hg hal⟩

/-- Witness for C6 at a concrete input. -/
theorem C6_least_conn_selection_witness :
    lcPool.get? 1 = some ⟨"B", true, 0⟩ ∧ Server.alive ⟨"B", true, 0⟩ = true :=
  ⟨(C6_least_conn_selection.2.1 lcPool 1 ⟨"B", true, 0⟩ (by decide)).1,
    (C6_least_conn_selection.2.1 lcPool 1 ⟨"B", true, 0⟩ (by decide)).2.1⟩

/-- C7: whenever `limitCheck` or `sessionCheck` emits a block signal, the
operation trace performs a blocking send on the unbuffered `blacklistCh`
strictly between acquiring and releasing `rl.mu` — the emission is a bare
channel send under the state lock, not a non-blocking attempt, contrary to
the claim. -/
theorem C7_blocking_send_under_lock :
    (∀ (rl : RateLimiter) (ip : String) (now : Int),
        rl.blackList ip = false → rateLimit < (windowStep rl ip now).length →
        sendWhileLocked (limitCheckTrace rl ip now) = true ∧
        (limitCheck rl ip now).blockSignals = [ip]) ∧
    (∀ (rl : RateLimiter) (ip : String) (now : Int),
        rl.brownList ip = none → rateLimit < (windowStep rl ip now).length →
        sendWhileLocked (sessionCheckTrace rl ip now) = true ∧
        (sessionCheck rl ip now).blockSignals = [ip]) := by
  constructor
  · intro rl ip now hb hw
    constructor
    · unfold limitCheckTrace
      simp [hb, hw, sendWhileLocked, sendWhileLockedAux]
    · unfold limitCheck
      simp only [hb, Bool.false_eq_true, if_false]
      unfold windowStep at hw
      simp [hw]
  · intro rl ip now hb hw
    constructor
    · unfold sessionCheckTrace
      simp only [hb]
      simp [hw, sendWhileLocked, sendWhileLockedAux]
    · unfold sessionCheck
      simp only [hb]
      unfold sessionWindow
      unfold windowStep at hw
      simp [hw]

/-- Witness for C7 at a concrete input. -/
theorem C7_blocking_send_under_lock_witness :
    rl20.blackList ipC1 = false ∧ rateLimit < (windowStep rl20 ipC1 0).length ∧
    sendWhileLocked (limitCheckTrace rl20 ipC1 0) = true :=
  ⟨rfl, by decide, (C7_blocking_send_under_lock.1 rl20 ipC1 0 rfl (by decide)).1⟩

/-- C8: every forwarded request leaves the chosen backend's counter
incremented by exactly one, never restored: the post-request servers list is
the pre-request list with the target's `activeConn` raised by one
(`incActiveConn`), because the `DecActiveConn` call after the forward is
commented out in the source; on `lbC8` a single request moves the counter
from 0 to 1. -/
theorem C8_counter_never_decremented :
    (∀ (lb : Loadbalancer) (fuel : Nat) (sid : String) (i : Nat),
        (serveProxy lb fuel sid).target = some i →
        (serveProxy lb fuel sid).lb.servers = incConnAt lb.servers i) ∧
    (∀ (l : List Server) (i : Nat) (s : Server),
        l.get? i = some s →
        (incConnAt l i).get? i = some (incActiveConn s) ∧
        (incActiveConn s).activeConn = s.activeConn + 1) ∧
    ((serveProxy lbC8 3 "").lb.servers.map Server.activeConn = [1] ∧
      lbC8.servers.map Server.activeConn = [0]) := by
  refine ⟨?_, fun l i s h => ⟨incConnAt_get l i s h, rfl⟩, by decide, by decide⟩
  intro lb fuel sid i h
  have hs := serveProxySelect_servers lb fuel sid
  unfold serveProxy at h ⊢
  rcases hr : serveProxySelect lb fuel sid with ⟨tgt, lb2⟩
  rw [hr] at h hs
  simp only [] at hs
  cases tgt with
  | none => simp [applyForward] at h
  | some j =>
    have hj : j = i := by simpa [applyForward] using h
    subst hj
    show incConnAt lb2.servers j = incConnAt lb.servers j
    rw [hs]

/-- Witness for C8 at a concrete input. -/
theorem C8_counter_never_decremented_witness :
    (serveProxy lbC8 3 "").target = some 0 ∧
    (serveProxy lbC8 3 "").lb.servers = incConnAt lbC8.servers 0 :=
  ⟨by decide, C8_counter_never_decremented.1 lbC8 3 "" 0 (by decide)⟩

/-- C9: for an IP with no active brown-list entry and no black-list entry,
`sessionCheck` and `limitCheck` store the very same appended-and-pruned
history into the shared `requests[ip]` window; and a mix of 10 session and
11 non-session requests from one IP within the window admits the first 20
and rejects the 21st, black-listing the IP — both paths count toward the one
threshold. -/
theorem C9_shared_window :
    (∀ (rl : RateLimiter) (ip : String) (now : Int),
        rl.brownList ip = none → rl.blackList ip = false →
        (sessionCheck rl ip now).st.requests ip = windowStep rl ip now ∧
        (limitCheck rl ip now).st.requests ip = windowStep rl ip now) ∧
    runMixedChecks initRL ipC1 c9Requests = List.replicate 20 true ++ [false] ∧
    (runMixedState initRL ipC1 c9Requests).blackList ipC1 = true := by
  refine ⟨?_, by decide, by decide⟩
  intro rl ip now hb hbl
  constructor
  · unfold sessionCheck
    simp only [hb]
    unfold sessionWindow windowStep
    by_cases hw : rateLimit < (pruneWindow now (rl.requests ip ++ [now])).length <;>
      simp [hw, upd]
  · unfold limitCheck windowStep
    simp only [hbl, Bool.false_eq_true, if_false]
    by_cases hw : rateLimit < (pruneWindow now (rl.requests ip ++ [now])).length <;>
      simp [hw, upd]

/-- Witness for C9 at a concrete input. -/
theorem C9_shared_window_witness :
    initRL.brownList ipC1 = none ∧ initRL.blackList ipC1 = false ∧
    ((sessionCheck initRL ipC1 0).st.requests ipC1 = windowStep initRL ipC1 0 ∧
      (limitCheck initRL ipC1 0).st.requests ipC1 = windowStep initRL ipC1 0) :=
  ⟨rfl, rfl, C9_shared_window.1 initRL ipC1 0 rfl rfl⟩

/-- C10: the brown-list timer's entire output is the single unblock emission
(it takes and returns no admission state); the brown-list entry itself is
cleared by the core inside `sessionCheck`: a call at or after the recorded
expiry deletes the entry before evaluating the window, and when the pruned
window is within the limit the call is admitted and the IP's block state is
`none` afterwards, with no external action. -/
theorem C10_brownlist_cleared_internally :
    (∀ (ip : String) (sched dur : Int),
        startTimer ip sched dur = { fireTime := sched + dur, emissions := [ip] }) ∧
    (∀ (rl : RateLimiter) (ip : String) (now e : Int),
        rl.brownList ip = some e → e ≤ now →
        (windowStep rl ip now).length ≤ rateLimit →
        (sessionCheck rl ip now).allowed = true ∧
        (sessionCheck rl ip now).st.brownList ip = none) := by
  refine ⟨fun _ _ _ => rfl, ?_⟩
  intro rl ip now e he hle hw
  have hnl : ¬ now < e := by omega
  have hw2 : ¬ rateLimit < (pruneWindow now (rl.requests ip ++ [now])).length := by
    unfold windowStep at hw; omega
  unfold sessionCheck
  simp only [he, hnl, if_false]
  unfold sessionWindow
  simp [hw2, upd]

/-- Witness for C10 at a concrete input. -/
theorem C10_brownlist_cleared_internally_witness :
    (sessionCheck rlBrown ipC1 brownListedDuration).allowed = true ∧
    (sessionCheck rlBrown ipC1 brownListedDuration).st.brownList ipC1 = none :=
  C10_brownlist_cleared_internally.2 rlBrown ipC1 brownListedDuration brownListedDuration
    (by decide) (by decide) (by decide)

end Firewall
